import Mathlib

/-!
Verification of `postgres-mcp-go`: a shallow embedding of the core of the
repository — the read-only query executor (`internal/db/db.go`), the schema
catalog accessor, the resource-base-URL computation in `db.New`, the MCP
`Setup` registration and `query` tool handler (`internal/server/server.go`),
and the SSE broadcast path — together with theorems about the claims of the
specification.

The database engine, the `net/url` library and the JSON encoder are external
collaborators of the code under verification; they are modelled as explicit
oracles (records of outcomes / parsed structures / encoder parameters) so
that the control flow of the repository's own functions is embedded exactly.
-/

namespace PostgresMCP

/-- A Go slice value: `none` models a nil slice, `some l` a non-nil slice
with elements `l`.  `encoding/json` distinguishes the two (nil encodes as
`null`, an empty non-nil slice as `[]`), and so do the claims. -/
abbrev GoSlice (α : Type) := Option (List α)

/-- The elements held by a Go slice; a nil slice holds none. -/
def GoSlice.toList : GoSlice α → List α
  | none => []
  | some l => l

/-- Observable events of one `ExecuteReadOnlyQuery` call, in the order the
function performs them: successful `Beginx`, the
`tx.Exec("SET TRANSACTION READ ONLY")` directive, the `tx.Queryx(query)`
call running the caller's SQL, `tx.Rollback()`, and `tx.Commit()` (which
the code never performs). -/
inductive Event : Type
  | beginTx
  | setReadOnly
  | execQuery
  | rollback
  | commit
  deriving DecidableEq, Repr

/-- The database engine as seen by one `ExecuteReadOnlyQuery` call: the
outcome the engine gives to each operation the function may attempt, in
program order.  `rowScans` is the stream of rows produced by `rows.Next` /
`rows.MapScan`, each either a scanned row or a scan error; `iterErr` is the
value of `rows.Err()` after iteration; rows are an abstract type `ρ`
(`map[string]interface{}` in the source). -/
structure Engine (ρ : Type) where
  beginErr : Option String
  setReadOnlyErr : Option String
  queryErr : Option String
  rowScans : List (Except String ρ)
  iterErr : Option String
  rollbackErr : Option String

/-- The Go return value `([]map[string]interface{}, error)`:
`rows = none` models a nil result slice. -/
structure GoReturn (ρ : Type) where
  rows : GoSlice ρ
  err : Option String
  deriving Repr

/-- The row loop of `ExecuteReadOnlyQuery`: starting from the accumulator
(`result` in the source, initialised to a non-nil empty slice), scan each
row with `MapScan`, stopping at the first scan error. -/
def scanRows : List (Except String ρ) → List ρ → Except String (List ρ)
  | [], acc => .ok acc
  | .ok r :: rest, acc => scanRows rest (acc ++ [r])
  | .error e :: _, _ => .error e

/-- Embedding of `DB.ExecuteReadOnlyQuery` (src/internal/db/db.go):
begin a transaction, set it read-only, run the caller's SQL, scan the rows,
check the iteration error, and roll back; every failure branch rolls back
(when a transaction exists) and returns the wrapped error.  Returns the Go
return value together with the trace of engine events performed. -/
def executeReadOnlyQuery (e : Engine ρ) (_query : String) :
    GoReturn ρ × List Event :=
  match e.beginErr with
  | some m => (⟨none, some ("failed to begin transaction: " ++ m)⟩, [])
  | none =>
    match e.setReadOnlyErr with
    | some m =>
      (⟨none, some ("failed to set transaction to read-only: " ++ m)⟩,
       [.beginTx, .setReadOnly, .rollback])
    | none =>
      match e.queryErr with
      | some m =>
        (⟨none, some ("failed to execute query: " ++ m)⟩,
         [.beginTx, .setReadOnly, .execQuery, .rollback])
      | none =>
        match scanRows e.rowScans [] with
        | .error m =>
          (⟨none, some ("failed to scan row: " ++ m)⟩,
           [.beginTx, .setReadOnly, .execQuery, .rollback])
        | .ok result =>
          match e.iterErr with
          | some m =>
            (⟨none, some ("error iterating over rows: " ++ m)⟩,
             [.beginTx, .setReadOnly, .execQuery, .rollback])
          | none =>
            match e.rollbackErr with
            | some m =>
              (⟨none, some ("failed to rollback transaction: " ++ m)⟩,
               [.beginTx, .setReadOnly, .execQuery, .rollback])
            | none =>
              (⟨some result, none⟩,
               [.beginTx, .setReadOnly, .execQuery, .rollback])

/-- Models `encoding/json.MarshalIndent` on a Go slice of rows: a nil slice
encodes as `null`, an empty non-nil slice as `[]`, and a non-empty slice as
an indented array of the rows' encodings (`encRow` is the library's encoding
of one row value). -/
def marshalIndentSlice (encRow : ρ → String) : GoSlice ρ → String
  | none => "null"
  | some [] => "[]"
  | some l => "[\n  " ++ String.intercalate ",\n  " (l.map encRow) ++ "\n]"

/-! ### `net/url` model and the resource base URL of `db.New` -/

/-- Models Go `url.Userinfo`: a username, and a password present only when
`passwordSet` (as built by `url.User` vs `url.UserPassword`). -/
structure Userinfo where
  username : String
  password : String
  passwordSet : Bool
  deriving DecidableEq, Repr

/-- The fields of Go `url.URL` used by `db.New`; `user = none` models a nil
`*Userinfo`. -/
structure URL where
  scheme : String
  user : Option Userinfo
  host : String
  path : String
  deriving DecidableEq, Repr

/-- Models `(*url.Userinfo).String`: the username, followed by `:password`
when the password is set. -/
def Userinfo.render (u : Userinfo) : String :=
  u.username ++ (if u.passwordSet then ":" ++ u.password else "")

/-- Models `(*url.URL).String` on the URLs at hand: scheme, `://`, the
userinfo followed by `@` when present, host, path. -/
def URL.render (u : URL) : String :=
  u.scheme ++ "://" ++
    (match u.user with
     | none => ""
     | some ui => ui.render ++ "@") ++
    u.host ++ u.path

/-- Models `(*url.Userinfo).Username`, which returns `""` on a nil
receiver. -/
def usernameOf : Option Userinfo → String
  | none => ""
  | some ui => ui.username

/-- Embedding of the resource-base-URL computation of `db.New`
(src/internal/db/db.go): copy the parsed URL, set the scheme to
`postgres`, and set the user to `url.User(parsedURL.User.Username())` —
a userinfo holding only the username, with no password set. -/
def resourceBaseOf (parsedURL : URL) : URL :=
  { parsedURL with
      scheme := "postgres"
      user := some ⟨usernameOf parsedURL.user, "", false⟩ }

/-- The parse (per `net/url`) of the connection string
`postgresql://u:p@host/db` used by the specification's scenario. -/
def scenarioURL : URL :=
  ⟨"postgresql", some ⟨"u", "p", true⟩, "host", "/db"⟩

/-! ### Schema catalog accessor -/

/-- One row of `information_schema.tables` as the engine reports it. -/
structure TableRow where
  table_schema : String
  table_name : String
  deriving DecidableEq, Repr

/-- One row of `information_schema.columns` as the engine reports it. -/
structure ColumnRow where
  table_schema : String
  table_name : String
  column_name : String
  data_type : String
  deriving DecidableEq, Repr

/-- Embedding of `db.TableColumn` (src/internal/db/db.go). -/
structure TableColumn where
  column_name : String
  data_type : String
  deriving DecidableEq, Repr

/-- The engine's metadata store plus the outcome of each `Select` round
trip (a failed round trip surfaces as the given error). -/
structure Catalog where
  tables : List TableRow
  columns : List ColumnRow
  tablesErr : Option String
  columnsErr : Option String

/-- `sqlx.Select` into an initially nil slice: appending each result row
leaves the slice nil exactly when there are no rows. -/
def selectInto : List α → GoSlice α
  | [] => none
  | l => some l

/-- Embedding of `DB.GetTableNames` (src/internal/db/db.go): select
`table_name` from `information_schema.tables` where
`table_schema = 'public'`. -/
def getTableNames (c : Catalog) : Except String (GoSlice String) :=
  match c.tablesErr with
  | some m => .error ("failed to get table names: " ++ m)
  | none =>
    .ok (selectInto
      ((c.tables.filter fun r => r.table_schema == "public").map
        fun r => r.table_name))

/-- Embedding of `DB.GetTableSchema` (src/internal/db/db.go): select
`column_name, data_type` from `information_schema.columns` where
`table_name = $1` — with no restriction on `table_schema`. -/
def getTableSchema (c : Catalog) (tableName : String) :
    Except String (GoSlice TableColumn) :=
  match c.columnsErr with
  | some m => .error ("failed to get table schema: " ++ m)
  | none =>
    .ok (selectInto
      ((c.columns.filter fun r => r.table_name == tableName).map
        fun r => ⟨r.column_name, r.data_type⟩))

/-! ### Resource registry (`Setup`) and the `query` tool handler -/

/-- The schema path component for resource URIs (src/internal/server/server.go). -/
def schemaPath : String := "schema"

/-- An MCP resource as registered by `Setup`: URI, display name,
description, MIME type. -/
structure Resource where
  uri : String
  name : String
  description : String
  mimeType : String
  deriving DecidableEq, Repr

/-- The resource URI `Setup` builds for one table:
`fmt.Sprintf("%s/%s/%s", s.db.ResourceBaseURL(), tableName, schemaPath)`. -/
def resourceURIFor (base tableName : String) : String :=
  base ++ "/" ++ tableName ++ "/" ++ schemaPath

/-- The resource `Setup` registers for one table: the URI above, display
name `"<table>" database schema`, the description, MIME type
`application/json`. -/
def resourceFor (base tableName : String) : Resource :=
  { uri := resourceURIFor base tableName
    name := "\"" ++ tableName ++ "\" database schema"
    description := "Schema information for table " ++ tableName
    mimeType := "application/json" }

/-- Embedding of the registration loop of `Setup`
(src/internal/server/server.go): one resource per enumerated table name,
in enumeration order. -/
def setupResources (base : String) (tableNames : List String) :
    List Resource :=
  tableNames.map (resourceFor base)

/-- Embedding of the schema-resource read handler registered by `Setup`:
fetch the table's schema fresh, propagate its failure wrapped, otherwise
marshal it (`marshal` models `json.MarshalIndent` on `[]TableColumn`, an
oracle of the JSON library) and return the document. -/
def readSchemaResource (c : Catalog)
    (marshal : GoSlice TableColumn → Except String String)
    (tableName : String) : Except String String :=
  match getTableSchema c tableName with
  | .error e =>
    .error ("failed to get schema for table " ++ tableName ++ ": " ++ e)
  | .ok schema =>
    match marshal schema with
    | .error e => .error ("failed to marshal schema to JSON: " ++ e)
    | .ok doc => .ok doc

/-- A dynamically typed Go value as found in the decoded MCP arguments map
(`map[string]interface{}`). -/
inductive GoValue : Type
  | str (s : String)
  | int (n : Int)
  | boolean (b : Bool)
  | null
  deriving DecidableEq, Repr

/-- The Go type assertion `v.(string)` applied to a map lookup: yields the
string and `true` when the key is present and holds a string, otherwise
the zero value and `false` (a missing key reads as a nil interface, whose
assertion fails). -/
def assertString : Option GoValue → String × Bool
  | some (.str s) => (s, true)
  | _ => ("", false)

/-- An MCP tool result: either a structured tool-error result
(`mcp.NewToolResultError*`) or a text result (`mcp.NewToolResultText`). -/
inductive ToolResult : Type
  | errorResult (msg : String)
  | textResult (text : String)
  deriving DecidableEq, Repr

/-- Embedding of the `query` tool handler registered by `Setup`
(src/internal/server/server.go): read `sql` from the arguments; if absent
or not a string return the structured tool error `SQL query is required`
without touching the database; otherwise run the executor (`exec`, the
`s.db.ExecuteReadOnlyQuery` call) and marshal the result (`marshal`, the
JSON library).  The first component is what the handler returns to the MCP
library: `.ok` a tool result in every branch — never `.error`, the
transport-level failure.  The second component records whether the
executor was invoked. -/
def queryToolHandler (exec : String → GoReturn ρ)
    (marshal : GoSlice ρ → Except String String)
    (args : List (String × GoValue)) :
    Except String ToolResult × Bool :=
  match assertString (args.lookup "sql") with
  | (_, false) => (.ok (.errorResult "SQL query is required"), false)
  | (sql, true) =>
    match (exec sql).err with
    | some e =>
      (.ok (.errorResult ("Failed to execute query: " ++ e)), true)
    | none =>
      match marshal (exec sql).rows with
      | .error e =>
        (.ok (.errorResult ("Failed to marshal result to JSON: " ++ e)), true)
      | .ok doc => (.ok (.textResult doc), true)

/-! ### SSE broadcast -/

/-- One SSE subscriber: its client id, its delivery channel modelled by
whether a receive on the unbuffered channel is currently possible
(`ready`) and the messages delivered so far. -/
structure Subscriber where
  id : String
  ready : Bool
  received : List String
  deriving DecidableEq, Repr

/-- The non-blocking send of `broadcastSSE`
(`select { case ch <- message: ... default: ... }`): deliver when the
channel can accept, otherwise leave the subscriber untouched. -/
def trySend (message : String) (s : Subscriber) : Subscriber :=
  if s.ready then { s with received := s.received ++ [message] } else s

/-- Embedding of `broadcastSSE` (src/internal/server/server.go): under the
subscriber-set lock, attempt a non-blocking send to every subscriber. -/
def broadcastSSE (message : String) (subs : List Subscriber) :
    List Subscriber :=
  subs.map (trySend message)

/-! ### Concrete engine instances used to witness the theorems -/

/-- An engine whose `Beginx` fails. -/
def engineBeginFail : Engine Unit :=
  ⟨some "no connection", none, none, [], none, none⟩

/-- An engine that opens the transaction but rejects the read-only
directive. -/
def engineDirectiveFail : Engine Unit :=
  ⟨none, some "denied", none, [], none, none⟩

/-- An engine on which everything succeeds and the query yields zero
rows. -/
def engineOK : Engine Unit :=
  ⟨none, none, none, [], none, none⟩

/-- An engine that yields one row successfully but fails the final
rollback. -/
def engineRollbackFail : Engine Unit :=
  ⟨none, none, none, [Except.ok ()], none, some "connection reset"⟩

/-! ### Concrete instances used to witness the server-side theorems -/

/-- A `query` invocation whose arguments map lacks the `sql` key. -/
def argsMissingSQL : List (String × GoValue) := []

/-- A `query` invocation whose `sql` argument is not a string. -/
def argsNonStringSQL : List (String × GoValue) := [("sql", GoValue.int 1)]

/-- A `query` invocation with a well-formed `sql` argument. -/
def argsGoodSQL : List (String × GoValue) :=
  [("sql", GoValue.str "SELECT 1")]

/-- An executor that always fails with an engine message. -/
def execAlwaysFails : String → GoReturn Unit :=
  fun _ => ⟨none, some "syntax error"⟩

/-- A JSON-encoder oracle that always succeeds. -/
def marshalAlwaysOK : GoSlice Unit → Except String String :=
  fun _ => Except.ok "[]"

/-- The JSON encoding of one `TableColumn` value (per `encoding/json`,
which uses the Go field names since the struct carries only `db` tags). -/
def encodeColumn (c : TableColumn) : String :=
  "\x7b \"ColumnName\": \"" ++ c.column_name ++
    "\", \"DataType\": \"" ++ c.data_type ++ "\" \x7d"

/-- The JSON-encoder oracle for `[]TableColumn`, which never fails. -/
def marshalColumns : GoSlice TableColumn → Except String String :=
  fun s => Except.ok (marshalIndentSlice encodeColumn s)

/-- A catalog holding one `users` table (in the public schema) whose only
column belongs to a table other than `ghost`. -/
def catalogNoGhost : Catalog :=
  ⟨[⟨"public", "users"⟩],
   [⟨"public", "users", "id", "integer"⟩],
   none, none⟩

/-- A catalog with a `users` table in the public schema and an
identically-named table in an `audit` schema. -/
def catalogTwoSchemas : Catalog :=
  ⟨[⟨"public", "users"⟩, ⟨"audit", "users"⟩],
   [⟨"public", "users", "id", "integer"⟩,
    ⟨"audit", "users", "actor", "text"⟩],
   none, none⟩

/-- Three SSE subscribers, the middle one stalled (its unbuffered channel
has no waiting receiver). -/
def subsDemo : List Subscriber :=
  [⟨"a", true, []⟩, ⟨"b", false, []⟩, ⟨"c", true, []⟩]

/-- How many messages each subscriber has received so far. -/
def receivedLengths (subs : List Subscriber) : List Nat :=
  subs.map fun s => s.received.length

/-- How many subscribers can currently accept a delivery. -/
def readyCount (subs : List Subscriber) : Nat :=
  subs.countP fun s => s.ready

end PostgresMCP

namespace PostgresMCP

/-! ## Theorems -/

/-- **C1.** For every SQL string and engine behaviour, whenever the
caller-supplied SQL runs (`execQuery` occurs), the trace begins with the
transaction open followed immediately by the `SET TRANSACTION READ ONLY`
directive and only then the query; if `Beginx` fails nothing else happens
(no SQL, no transaction) and an error is returned; if the directive fails
the SQL is never executed, the opened transaction is rolled back, and an
error is returned. -/
theorem readOnly_directive_precedes_query (e : Engine ρ) (q : String) :
    (Event.execQuery ∈ (executeReadOnlyQuery e q).2 →
      (executeReadOnlyQuery e q).2.take 3 =
        [Event.beginTx, Event.setReadOnly, Event.execQuery]) ∧
    (e.beginErr.isSome →
      (executeReadOnlyQuery e q).2 = [] ∧
      (executeReadOnlyQuery e q).1.err.isSome) ∧
    (e.beginErr = none → e.setReadOnlyErr.isSome →
      Event.execQuery ∉ (executeReadOnlyQuery e q).2 ∧
      Event.rollback ∈ (executeReadOnlyQuery e q).2 ∧
      (executeReadOnlyQuery e q).1.err.isSome) := by
  obtain ⟨b, s, qe, rs, it, rb⟩ := e
  cases b <;> cases s <;> cases qe <;>
    simp [executeReadOnlyQuery] <;>
    rcases h : scanRows rs [] with m | r <;> simp [h] <;>
    cases it <;> simp <;> cases rb <;> simp

/-- Witness for C1 at concrete engines: a zero-row success run, a failed
`Beginx`, and a rejected read-only directive. -/
theorem readOnly_directive_precedes_query_witness :
    ((executeReadOnlyQuery engineOK "SELECT 1").2.take 3 =
        [Event.beginTx, Event.setReadOnly, Event.execQuery]) ∧
    ((executeReadOnlyQuery engineBeginFail "SELECT 1").2 = [] ∧
      (executeReadOnlyQuery engineBeginFail "SELECT 1").1.err.isSome) ∧
    (Event.execQuery ∉ (executeReadOnlyQuery engineDirectiveFail "SELECT 1").2 ∧
      Event.rollback ∈ (executeReadOnlyQuery engineDirectiveFail "SELECT 1").2 ∧
      (executeReadOnlyQuery engineDirectiveFail "SELECT 1").1.err.isSome) :=
  ⟨(readOnly_directive_precedes_query engineOK "SELECT 1").1 (by decide),
   (readOnly_directive_precedes_query engineBeginFail "SELECT 1").2.1 (by decide),
   (readOnly_directive_precedes_query engineDirectiveFail "SELECT 1").2.2
     rfl (by decide)⟩

/-- **C2.** On every exit path of `ExecuteReadOnlyQuery`, the trace never
contains a commit; whenever a transaction was opened it is rolled back
before the function returns; and whenever `Beginx` succeeds a transaction
is indeed opened. -/
theorem transaction_always_rolled_back (e : Engine ρ) (q : String) :
    Event.commit ∉ (executeReadOnlyQuery e q).2 ∧
    (Event.beginTx ∈ (executeReadOnlyQuery e q).2 →
      Event.rollback ∈ (executeReadOnlyQuery e q).2) ∧
    (e.beginErr = none → Event.beginTx ∈ (executeReadOnlyQuery e q).2) := by
  obtain ⟨b, s, qe, rs, it, rb⟩ := e
  cases b <;> cases s <;> cases qe <;>
    simp [executeReadOnlyQuery] <;>
    rcases h : scanRows rs [] with m | r <;> simp [h] <;>
    cases it <;> simp <;> cases rb <;> simp

/-- Witness for C2 at a concrete engine: the zero-row success run opens a
transaction and still rolls it back, committing nowhere. -/
theorem transaction_always_rolled_back_witness :
    Event.commit ∉ (executeReadOnlyQuery engineOK "SELECT 1").2 ∧
    Event.rollback ∈ (executeReadOnlyQuery engineOK "SELECT 1").2 ∧
    Event.beginTx ∈ (executeReadOnlyQuery engineOK "SELECT 1").2 :=
  ⟨(transaction_always_rolled_back engineOK "SELECT 1").1,
   (transaction_always_rolled_back engineOK "SELECT 1").2.1 (by decide),
   (transaction_always_rolled_back engineOK "SELECT 1").2.2 rfl⟩

/-- **C8.** When the query and every row scan succeed and iteration reports
no error, but the final rollback itself fails, the function discards the
materialized rows (returns a nil slice) and returns the rollback error. -/
theorem rollback_failure_discards_rows (e : Engine ρ) (q : String)
    (rs : List ρ) (m : String)
    (h1 : e.beginErr = none) (h2 : e.setReadOnlyErr = none)
    (h3 : e.queryErr = none) (h4 : scanRows e.rowScans [] = .ok rs)
    (h5 : e.iterErr = none) (h6 : e.rollbackErr = some m) :
    (executeReadOnlyQuery e q).1.rows = none ∧
    (executeReadOnlyQuery e q).1.err =
      some ("failed to rollback transaction: " ++ m) := by
  obtain ⟨b, s, qe, rsc, it, rb⟩ := e
  simp only at h1 h2 h3 h4 h5 h6
  subst h1 h2 h3 h5 h6
  simp [executeReadOnlyQuery, h4]

/-- Witness for C8: one row scans successfully, the rollback fails, and the
caller receives a nil result with the rollback error. -/
theorem rollback_failure_discards_rows_witness :
    (executeReadOnlyQuery engineRollbackFail "SELECT 1").1.rows = none ∧
    (executeReadOnlyQuery engineRollbackFail "SELECT 1").1.err =
      some ("failed to rollback transaction: " ++ "connection reset") :=
  rollback_failure_discards_rows engineRollbackFail "SELECT 1" [()]
    "connection reset" rfl rfl rfl rfl rfl rfl

/-- **C9.** A fully successful call whose query yields zero rows returns the
non-nil empty slice with no error; the JSON encoding of that result is the
empty array `[]`, whereas a nil slice would encode as `null`. -/
theorem zero_rows_empty_non_nil (e : Engine ρ) (q : String)
    (encRow : ρ → String)
    (h1 : e.beginErr = none) (h2 : e.setReadOnlyErr = none)
    (h3 : e.queryErr = none) (h4 : e.rowScans = [])
    (h5 : e.iterErr = none) (h6 : e.rollbackErr = none) :
    (executeReadOnlyQuery e q).1 = ⟨some [], none⟩ ∧
    marshalIndentSlice encRow (executeReadOnlyQuery e q).1.rows = "[]" ∧
    marshalIndentSlice encRow (none : GoSlice ρ) = "null" := by
  obtain ⟨b, s, qe, rsc, it, rb⟩ := e
  simp only at h1 h2 h3 h4 h5 h6
  subst h1 h2 h3 h4 h5 h6
  simp [executeReadOnlyQuery, scanRows, marshalIndentSlice]

/-- Witness for C9: the zero-row success engine returns the non-nil empty
slice, whose JSON payload is `[]`. -/
theorem zero_rows_empty_non_nil_witness :
    (executeReadOnlyQuery engineOK "SELECT 1").1 = ⟨some [], none⟩ ∧
    marshalIndentSlice (fun _ => "")
      (executeReadOnlyQuery engineOK "SELECT 1").1.rows = "[]" ∧
    marshalIndentSlice (fun _ => "") (none : GoSlice Unit) = "null" :=
  zero_rows_empty_non_nil engineOK "SELECT 1" (fun _ => "")
    rfl rfl rfl rfl rfl rfl

/-- **C3 counterexample.** On the connection string
`postgresql://u:p@host/db` the computed resource base is not
`postgres://host/db`, and the schema resource URI for table `users` is not
`postgres://host/db/users/schema`: `db.New` keeps the username in the
rewritten URL. -/
theorem resource_base_counterexample :
    (resourceBaseOf scenarioURL).render ≠ "postgres://host/db" ∧
    resourceURIFor (resourceBaseOf scenarioURL).render "users" ≠
      "postgres://host/db/users/schema" := by
  constructor <;> decide

/-- **C3 amended.** For every parsed connection URL, the resource base has
its scheme rewritten to `postgres` and its userinfo replaced by one holding
only the username with no password set, so the rendered base contains the
username but never the password; on connection string
`postgresql://u:p@host/db` the base renders as `postgres://u@host/db` and
the schema resource for table `users` has URI
`postgres://u@host/db/users/schema`. -/
theorem resource_base_strips_password_only (u : URL) :
    (resourceBaseOf u).scheme = "postgres" ∧
    (resourceBaseOf u).user = some ⟨usernameOf u.user, "", false⟩ ∧
    ((resourceBaseOf u).user.map Userinfo.render) =
      some (usernameOf u.user) ∧
    (resourceBaseOf scenarioURL).render = "postgres://u@host/db" ∧
    resourceURIFor (resourceBaseOf scenarioURL).render "users" =
      "postgres://u@host/db/users/schema" := by
  refine ⟨rfl, rfl, ?_, by decide, by decide⟩
  simp [resourceBaseOf, Userinfo.render]

/-- **C4.** If the `sql` argument is absent or not a string, the `query`
tool handler returns the structured tool error `SQL query is required`
(never a transport-level failure) and does not call the executor; if the
executor fails, the handler returns a structured tool error carrying the
underlying message, again not a transport-level failure. -/
theorem query_tool_handler_errors (exec : String → GoReturn ρ)
    (marshal : GoSlice ρ → Except String String)
    (args : List (String × GoValue)) :
    ((∀ s : String, args.lookup "sql" ≠ some (GoValue.str s)) →
      queryToolHandler exec marshal args =
        (.ok (.errorResult "SQL query is required"), false)) ∧
    (∀ sql m, args.lookup "sql" = some (GoValue.str sql) →
      (exec sql).err = some m →
      queryToolHandler exec marshal args =
        (.ok (.errorResult ("Failed to execute query: " ++ m)), true)) := by
  constructor
  · intro habs
    rcases h : args.lookup "sql" with _ | v
    · simp [queryToolHandler, assertString, h]
    · cases v with
      | str s => exact absurd h (habs s)
      | int n => simp [queryToolHandler, assertString, h]
      | boolean b => simp [queryToolHandler, assertString, h]
      | null => simp [queryToolHandler, assertString, h]
  · intro sql m hl he
    simp [queryToolHandler, assertString, hl, he]

/-- Witness for C4 at concrete invocations: missing `sql`, non-string
`sql`, and a failing executor. -/
theorem query_tool_handler_errors_witness :
    queryToolHandler execAlwaysFails marshalAlwaysOK argsMissingSQL =
      (.ok (.errorResult "SQL query is required"), false) ∧
    queryToolHandler execAlwaysFails marshalAlwaysOK argsNonStringSQL =
      (.ok (.errorResult "SQL query is required"), false) ∧
    queryToolHandler execAlwaysFails marshalAlwaysOK argsGoodSQL =
      (.ok (.errorResult ("Failed to execute query: " ++ "syntax error")),
        true) :=
  ⟨(query_tool_handler_errors execAlwaysFails marshalAlwaysOK
      argsMissingSQL).1 (by intro s h; simp [argsMissingSQL] at h),
   (query_tool_handler_errors execAlwaysFails marshalAlwaysOK
      argsNonStringSQL).1
     (by intro s h; simp [argsNonStringSQL, List.lookup] at h),
   (query_tool_handler_errors execAlwaysFails marshalAlwaysOK
      argsGoodSQL).2 "SELECT 1" "syntax error" (by decide) rfl⟩

/-- Helper: for a fixed base, the resource URI built by `Setup` is
injective in the table name (string concatenation cancels on both
sides). -/
theorem resourceURIFor_injective (base : String) :
    Function.Injective (resourceURIFor base) := by
  intro a b h
  unfold resourceURIFor at h
  have h' := congrArg String.data h
  simp only [String.data_append] at h'
  exact String.ext
    (List.append_cancel_left
      (List.append_cancel_right (List.append_cancel_right h')))

/-- **C5.** For every enumerated table name `t` (enumeration, per the
engine, yields no duplicate names), `Setup` registers the resource with URI
`{base}/{t}/schema`, display name `"t" database schema` and MIME type
`application/json`; that URI occurs exactly once among the registered
resources, and distinct table names always yield distinct URIs. -/
theorem setup_registers_one_resource_per_table (base : String)
    (tableNames : List String) (h : tableNames.Nodup) (t : String)
    (ht : t ∈ tableNames) :
    resourceFor base t ∈ setupResources base tableNames ∧
    (resourceFor base t).uri = base ++ "/" ++ t ++ "/" ++ "schema" ∧
    (resourceFor base t).name = "\"" ++ t ++ "\" database schema" ∧
    (resourceFor base t).mimeType = "application/json" ∧
    ((setupResources base tableNames).map Resource.uri).count
      (resourceURIFor base t) = 1 ∧
    (∀ t1 t2 : String, t1 ≠ t2 →
      resourceURIFor base t1 ≠ resourceURIFor base t2) := by
  refine ⟨List.mem_map_of_mem _ ht, rfl, rfl, rfl, ?_, ?_⟩
  · have hmap : (setupResources base tableNames).map Resource.uri =
        tableNames.map (resourceURIFor base) := by
      simp only [setupResources, List.map_map]
      rfl
    rw [hmap,
      List.count_map_of_injective tableNames _
        (resourceURIFor_injective base) t]
    exact List.count_eq_one_of_mem h ht
  · intro t1 t2 hne heq
    exact hne (resourceURIFor_injective base heq)

/-- Witness for C5: two tables, the `users` resource registered exactly
once with distinct URIs per table. -/
theorem setup_registers_one_resource_per_table_witness :
    resourceFor "postgres://u@host/db" "users" ∈
      setupResources "postgres://u@host/db" ["users", "orders"] ∧
    ((setupResources "postgres://u@host/db" ["users", "orders"]).map
        Resource.uri).count
      (resourceURIFor "postgres://u@host/db" "users") = 1 ∧
    resourceURIFor "postgres://u@host/db" "users" ≠
      resourceURIFor "postgres://u@host/db" "orders" := by
  have h := setup_registers_one_resource_per_table "postgres://u@host/db"
    ["users", "orders"] (by decide) "users" (by decide)
  exact ⟨h.1, h.2.2.2.2.1, h.2.2.2.2.2 "users" "orders" (by decide)⟩

/-- **C6.** When the metadata lookup itself succeeds and no column row
matches the requested table, `GetTableSchema` returns the empty (nil)
column sequence with no error, and the schema-resource read succeeds with
the document the JSON encoder produces for it, rather than failing. -/
theorem missing_table_empty_schema (c : Catalog) (t : String)
    (marshal : GoSlice TableColumn → Except String String) (doc : String)
    (h1 : c.columnsErr = none)
    (h2 : ∀ r ∈ c.columns, r.table_name ≠ t)
    (h3 : marshal none = .ok doc) :
    getTableSchema c t = .ok none ∧
    GoSlice.toList (none : GoSlice TableColumn) = [] ∧
    readSchemaResource c marshal t = .ok doc := by
  have hfilter : c.columns.filter (fun r => r.table_name == t) = [] := by
    rw [List.filter_eq_nil_iff]
    intro r hr
    simpa using h2 r hr
  have hschema : getTableSchema c t = .ok none := by
    simp [getTableSchema, h1, hfilter, selectInto]
  exact ⟨hschema, rfl, by simp [readSchemaResource, hschema, h3]⟩

/-- Witness for C6: reading the schema of absent table `ghost` yields the
nil column sequence and a successful resource read (`null` document). -/
theorem missing_table_empty_schema_witness :
    getTableSchema catalogNoGhost "ghost" = .ok none ∧
    GoSlice.toList (none : GoSlice TableColumn) = [] ∧
    readSchemaResource catalogNoGhost marshalColumns "ghost" =
      .ok "null" :=
  missing_table_empty_schema catalogNoGhost "ghost" marshalColumns "null"
    rfl (by decide) rfl

/-- **C7.** `broadcastSSE` touches every subscriber exactly once: every
subscriber whose channel can accept the message receives it appended to
its deliveries, every stalled subscriber is skipped unchanged, and the
total number of deliveries equals the number of ready subscribers — so
with one stalled subscriber among N, the other N−1 receive the message and
the broadcast completes without blocking on anyone. -/
theorem broadcast_nonblocking (message : String)
    (subs : List Subscriber) :
    (broadcastSSE message subs).length = subs.length ∧
    (∀ s ∈ subs, s.ready = true →
      { s with received := s.received ++ [message] } ∈
        broadcastSSE message subs) ∧
    (∀ s ∈ subs, s.ready = false → s ∈ broadcastSSE message subs) ∧
    (receivedLengths (broadcastSSE message subs)).sum =
      (receivedLengths subs).sum + readyCount subs := by
  refine ⟨by simp [broadcastSSE], ?_, ?_, ?_⟩
  · intro s hs hr
    have hts : trySend message s =
        { s with received := s.received ++ [message] } := by
      simp [trySend, hr]
    exact hts ▸ List.mem_map_of_mem _ hs
  · intro s hs hr
    have hts : trySend message s = s := by simp [trySend, hr]
    exact hts ▸ List.mem_map_of_mem _ hs
  · induction subs with
    | nil => simp [broadcastSSE, receivedLengths, readyCount]
    | cons s rest ih =>
      simp only [broadcastSSE, receivedLengths, readyCount, List.map_cons,
        List.sum_cons, List.countP_cons] at ih ⊢
      by_cases h : s.ready
      all_goals simp [trySend, h, List.map_map, Function.comp] at ih ⊢
      all_goals omega

/-- Witness for C7: broadcasting to three subscribers with the middle one
stalled delivers to the two ready ones, leaves the stalled one unchanged,
and makes exactly two deliveries. -/
theorem broadcast_nonblocking_witness :
    (broadcastSSE "ping" subsDemo).length = subsDemo.length ∧
    (⟨"a", true, ["ping"]⟩ : Subscriber) ∈ broadcastSSE "ping" subsDemo ∧
    (⟨"b", false, []⟩ : Subscriber) ∈ broadcastSSE "ping" subsDemo ∧
    (receivedLengths (broadcastSSE "ping" subsDemo)).sum =
      (receivedLengths subsDemo).sum + readyCount subsDemo := by
  have h := broadcast_nonblocking "ping" subsDemo
  refine ⟨h.1, ?_, ?_, h.2.2.2⟩
  · exact h.2.1 ⟨"a", true, []⟩ (by decide) rfl
  · exact h.2.2.1 ⟨"b", false, []⟩ (by decide) rfl

/-- Helper: the elements of the slice `sqlx.Select` fills are exactly the
selected rows. -/
theorem selectInto_toList (l : List α) :
    GoSlice.toList (selectInto l) = l := by
  cases l <;> rfl

/-- **C10.** `GetTableNames` enumerates exactly the tables whose
`table_schema` is `public`, while `GetTableSchema` includes every column
row whose `table_name` matches, regardless of its schema — so a table name
existing in more than one schema contributes the columns of every
identically-named table to the published schema resource. -/
theorem schema_lookup_spans_all_schemas (c : Catalog) (t : String)
    (names : GoSlice String) (cols : GoSlice TableColumn)
    (hn : getTableNames c = .ok names)
    (hc : getTableSchema c t = .ok cols) :
    (∀ n, n ∈ names.toList ↔
      ∃ r ∈ c.tables, r.table_schema = "public" ∧ r.table_name = n) ∧
    (∀ r ∈ c.columns, r.table_name = t →
      (⟨r.column_name, r.data_type⟩ : TableColumn) ∈ cols.toList) := by
  have h1 : names = selectInto
      ((c.tables.filter fun r => r.table_schema == "public").map
        fun r => r.table_name) := by
    rcases h : c.tablesErr with _ | m
    · simp [getTableNames, h] at hn
      exact hn.symm
    · simp [getTableNames, h] at hn
  have h2 : cols = selectInto
      ((c.columns.filter fun x => x.table_name == t).map
        fun x => (⟨x.column_name, x.data_type⟩ : TableColumn)) := by
    rcases h : c.columnsErr with _ | m
    · simp [getTableSchema, h] at hc
      exact hc.symm
    · simp [getTableSchema, h] at hc
  constructor
  · intro n
    rw [h1, selectInto_toList]
    simp only [List.mem_map, List.mem_filter, beq_iff_eq]
    tauto
  · intro r hr hname
    rw [h2, selectInto_toList]
    exact List.mem_map_of_mem _
      (List.mem_filter.mpr ⟨hr, by simp [hname]⟩)

/-- Witness for C10: with `users` present in both the `public` and the
`audit` schema, enumeration lists `users` and the published schema
includes the `audit` table's column. -/
theorem schema_lookup_spans_all_schemas_witness :
    ("users" ∈ GoSlice.toList (some ["users"])) ∧
    (⟨"actor", "text"⟩ : TableColumn) ∈
      GoSlice.toList
        (some [(⟨"id", "integer"⟩ : TableColumn), ⟨"actor", "text"⟩]) := by
  have h := schema_lookup_spans_all_schemas catalogTwoSchemas "users"
    (some ["users"])
    (some [(⟨"id", "integer"⟩ : TableColumn), ⟨"actor", "text"⟩])
    rfl rfl
  exact ⟨(h.1 "users").mpr ⟨⟨"public", "users"⟩, by decide, rfl, rfl⟩,
    h.2 ⟨"audit", "users", "actor", "text"⟩ (by decide) rfl⟩

end PostgresMCP
